import Mathlib

/-!
Verification of the Tic-Tac-Toe board engine
(`Simple Tic-Tac-Toe with Python/task/tictactoe.py`).

The game state is a 9-character string, embedded here as `List Char`.
Coordinate tokens typed by the user are also character sequences, embedded
as `List Char`.  Python integers are embedded as `ℤ`.  Python's
exception-based validation is embedded as `Except`.

Slicing `state[:index]`/`state[index+1:]` is embedded via `List.take` /
`List.drop`, which agrees with Python for the nonnegative indices all
claims are about.  `str.isdigit` is embedded for the ASCII fragment of
Unicode, which covers every input the claims quantify over.
-/

/-- The `GameStatus` enum of the source. -/
inductive GameStatus where
  | NOT_FINISHED
  | X_WIN
  | O_WIN
  | DRAW
  | IMPOSSIBLE
deriving DecidableEq, Repr

/-- The three validation-error exception classes of the source
(`NonNumericError`, `CoordinateError`, `OccupiedCellError`). -/
inductive MoveError where
  | nonNumeric
  | outOfRange
  | cellOccupied
deriving DecidableEq, Repr

/-- Embeds `get_candidate(state, char)`: the set of indices of `state` holding
`char`. -/
def get_candidate (state : List Char) (char : Char) : Finset ℕ :=
  (Finset.range state.length).filter (fun i => state[i]? = some char)

/-- Embeds `get_blank_count(state)`: how many cells hold `' '`. -/
def get_blank_count (state : List Char) : ℕ :=
  (get_candidate state ' ').card

/-- The catalogue `winners` of the 8 winning index triples in `check_win`. -/
def winners : List (Finset ℕ) :=
  [{0, 1, 2}, {3, 4, 5}, {6, 7, 8}, {0, 3, 6}, {1, 4, 7}, {2, 5, 8},
   {0, 4, 8}, {2, 4, 6}]

/-- Embeds `check_win(candidate)`: is any winning set a subset of the candidate? -/
def check_win (candidate : Finset ℕ) : Bool :=
  winners.any (fun winner => decide (winner ⊆ candidate))

/-- Embeds `evaluate_game_status(state)`. -/
def evaluate_game_status (state : List Char) : GameStatus :=
  let blank_count := get_blank_count state
  let x_candidate := get_candidate state 'X'
  let o_candidate := get_candidate state 'O'
  if ((x_candidate.card : ℤ) - (o_candidate.card : ℤ)).natAbs > 1 then
    GameStatus.IMPOSSIBLE
  else
    let x_win := check_win x_candidate
    let o_win := check_win o_candidate
    if x_win && o_win then GameStatus.IMPOSSIBLE
    else if x_win then GameStatus.X_WIN
    else if o_win then GameStatus.O_WIN
    else if blank_count > 0 then GameStatus.NOT_FINISHED
    else GameStatus.DRAW

/-- Embeds `flatten_coordinates(coordinates)`: one-based `(row, col)` to the flat
index `(row-1)*3 + (col-1)`. -/
def flatten_coordinates (coordinates : ℤ × ℤ) : ℤ :=
  (coordinates.1 - 1) * 3 + (coordinates.2 - 1)

/-- Embeds `add_move(state, coords, char)`:
`state[:index] + char + state[index+1:]` at `index =
flatten_coordinates(coords)`.  Faithful to Python slicing whenever the
flat index is nonnegative (every claim is about indices in `[0,8]`). -/
def add_move (state : List Char) (coords : ℤ × ℤ) (char : Char) :
    List Char :=
  let index := (flatten_coordinates coords).toNat
  state.take index ++ char :: state.drop (index + 1)

/-- Python `str.isdigit` on the ASCII fragment: nonempty and all
characters are decimal digits. -/
def isdigit (s : List Char) : Bool :=
  !s.isEmpty && s.all Char.isDigit

/-- Python `int(...)` on a string that passed `isdigit`: the usual
base-10 value of the digit sequence. -/
def to_int (s : List Char) : ℤ :=
  s.foldl (fun a c => 10 * a + ((c.toNat - '0'.toNat : ℕ) : ℤ)) 0

/-- Embeds `validate_move(state, coords)`: `isdigit` on both tokens, else
`NonNumericError`; both parsed values in `range(1, 4)`, else
`CoordinateError`; `state[index] in ['X', 'O']`, raising
`OccupiedCellError`; otherwise the parsed coordinate pair. -/
def validate_move (state : List Char) (coords : List Char × List Char) :
    Except MoveError (ℤ × ℤ) :=
  let row := coords.1
  let col := coords.2
  if ¬(isdigit row = true) ∨ ¬(isdigit col = true) then
    Except.error MoveError.nonNumeric
  else
    let new_coords : ℤ × ℤ := (to_int row, to_int col)
    if ¬(1 ≤ new_coords.1 ∧ new_coords.1 < 4) ∨
       ¬(1 ≤ new_coords.2 ∧ new_coords.2 < 4) then
      Except.error MoveError.outOfRange
    else
      let index := (flatten_coordinates new_coords).toNat
      if state[index]? = some 'X' ∨ state[index]? = some 'O' then
        Except.error MoveError.cellOccupied
      else
        Except.ok new_coords

/-- Embeds `get_player(state)`: `'X'` if the number of cells in `'XO'` is even,
else `'O'`. -/
def get_player (state : List Char) : Char :=
  let play_count := state.countP (fun x => x == 'X' || x == 'O')
  if play_count % 2 = 0 then 'X' else 'O'

/-- One iteration of the body of `main`'s loop, restricted to the state
transition: on a validation error the message is printed and the state
kept, otherwise the validated move is applied for the current player. -/
def driver_step (state : List Char) (tokens : List Char × List Char) :
    List Char × Option MoveError :=
  match validate_move state tokens with
  | Except.error e => (state, some e)
  | Except.ok checked_coords =>
      (add_move state checked_coords (get_player state), none)

/-! ## Spec-side definitions

These follow the specification's wording, to be compared with the
definitions above, which follow the source. -/

/-- Spec-side reading of one cell: index `i` of the board holds mark
`ch`. -/
def holds_cell (l : List Char) (ch : Char) (i : ℕ) : Bool :=
  decide (l[i]? = some ch)

/-- Spec-side "has a winning line": one of the 3 rows, 3 columns or 2
diagonals is fully held by the player, spelled out cell by cell. -/
def spec_wins (l : List Char) (ch : Char) : Bool :=
  (holds_cell l ch 0 && holds_cell l ch 1 && holds_cell l ch 2) ||
  (holds_cell l ch 3 && holds_cell l ch 4 && holds_cell l ch 5) ||
  (holds_cell l ch 6 && holds_cell l ch 7 && holds_cell l ch 8) ||
  (holds_cell l ch 0 && holds_cell l ch 3 && holds_cell l ch 6) ||
  (holds_cell l ch 1 && holds_cell l ch 4 && holds_cell l ch 7) ||
  (holds_cell l ch 2 && holds_cell l ch 5 && holds_cell l ch 8) ||
  (holds_cell l ch 0 && holds_cell l ch 4 && holds_cell l ch 8) ||
  (holds_cell l ch 2 && holds_cell l ch 4 && holds_cell l ch 6)

/-- Spec-side status evaluation, with the priority order spelled out:
count imbalance, double win, X win, O win, any empty cell, draw. -/
def spec_status (state : List Char) : GameStatus :=
  let countX := state.countP (fun c => c == 'X')
  let countO := state.countP (fun c => c == 'O')
  if ((countX : ℤ) - (countO : ℤ)).natAbs > 1 then GameStatus.IMPOSSIBLE
  else if spec_wins state 'X' && spec_wins state 'O' then
    GameStatus.IMPOSSIBLE
  else if spec_wins state 'X' then GameStatus.X_WIN
  else if spec_wins state 'O' then GameStatus.O_WIN
  else if ' ' ∈ state then GameStatus.NOT_FINISHED
  else GameStatus.DRAW

/-- Spec-side mirrored status: X-wins and O-wins exchanged, the rest
unchanged. -/
def mirror_status : GameStatus → GameStatus
  | GameStatus.X_WIN => GameStatus.O_WIN
  | GameStatus.O_WIN => GameStatus.X_WIN
  | s => s

/-- Swap every X with O and every O with X in a state. -/
def swap_marks (state : List Char) : List Char :=
  state.map (fun c => if c = 'X' then 'O' else if c = 'O' then 'X' else c)

/-- Spec-side "token parses as an integer", after Python `int(str)`: an
optional sign followed by a nonempty run of digits. -/
def spec_parses_as_int (s : List Char) : Bool :=
  match s with
  | '-' :: rest => isdigit rest
  | '+' :: rest => isdigit rest
  | _ => isdigit s

/-- States reachable from the empty board by `k` validated moves, each
applied for the player whose turn it is, as the driver loop does. -/
inductive Reachable : List Char → ℕ → Prop where
  | empty : Reachable (List.replicate 9 ' ') 0
  | step {s : List Char} {k : ℕ} {tokens : List Char × List Char}
      {checked : ℤ × ℤ} :
      Reachable s k →
      validate_move s tokens = Except.ok checked →
      Reachable (add_move s checked (get_player s)) (k + 1)

/-! ## Helper lemmas about candidate sets -/

lemma mem_get_candidate {l : List Char} {ch : Char} {i : ℕ} :
    i ∈ get_candidate l ch ↔ l[i]? = some ch := by
  simp only [get_candidate, Finset.mem_filter, Finset.mem_range]
  constructor
  · rintro ⟨-, h⟩
    exact h
  · intro h
    obtain ⟨hlt, -⟩ := List.getElem?_eq_some.mp h
    exact ⟨hlt, h⟩

lemma card_get_candidate (l : List Char) (ch : Char) :
    (get_candidate l ch).card = l.countP (fun c => c == ch) := by
  induction l using List.reverseRecOn with
  | nil => rfl
  | append_singleton l c ih =>
      have hlen : (l ++ [c]).length = l.length + 1 := by simp
      have hfilter :
          (Finset.range l.length).filter
              (fun i => (l ++ [c])[i]? = some ch) =
            get_candidate l ch := by
        apply Finset.filter_congr
        intro i hi
        rw [Finset.mem_range] at hi
        rw [List.getElem?_append_left hi]
      rw [show get_candidate (l ++ [c]) ch =
            (Finset.range (l.length + 1)).filter
              (fun i => (l ++ [c])[i]? = some ch) by
          rw [get_candidate, hlen]]
      rw [Finset.range_succ, Finset.filter_insert, List.countP_append]
      have hend : (l ++ [c])[l.length]? = some c :=
        List.getElem?_concat_length l c
      by_cases hc : c = ch
      · rw [if_pos (by rw [hend, hc])]
        rw [Finset.card_insert_of_not_mem, hfilter, ih]
        · simp [hc]
        · rw [hfilter]
          intro hmem
          rw [mem_get_candidate] at hmem
          have hnone : l[l.length]? = none :=
            List.getElem?_eq_none (le_refl _)
          rw [hnone] at hmem
          exact Option.noConfusion hmem
      · rw [if_neg (by
          rw [hend]
          intro h
          exact hc (Option.some.inj h))]
        rw [hfilter, ih]
        simp [hc]

lemma blank_count_pos_iff (l : List Char) :
    get_blank_count l > 0 ↔ ' ' ∈ l := by
  rw [get_blank_count, card_get_candidate]
  rw [gt_iff_lt, List.countP_pos_iff]
  simp

lemma decide_triple_subset (l : List Char) (ch : Char) (a b c : ℕ) :
    decide (({a, b, c} : Finset ℕ) ⊆ get_candidate l ch) =
      (holds_cell l ch a && holds_cell l ch b && holds_cell l ch c) := by
  rw [Bool.eq_iff_iff]
  simp only [decide_eq_true_eq, Bool.and_eq_true, holds_cell,
    Finset.insert_subset_iff, Finset.singleton_subset_iff,
    mem_get_candidate]
  tauto

lemma check_win_get_candidate (l : List Char) (ch : Char) :
    check_win (get_candidate l ch) = spec_wins l ch := by
  simp only [check_win, winners, List.any_cons, List.any_nil,
    Bool.or_false, decide_triple_subset, spec_wins, Bool.or_assoc]

example : evaluate_game_status (List.replicate 9 ' ') =
    GameStatus.NOT_FINISHED := by decide

example :
    evaluate_game_status ['X', 'X', 'X', 'O', 'O', ' ', ' ', ' ', ' '] =
    GameStatus.X_WIN := by decide

example :
    evaluate_game_status ['X', 'X', 'O', 'O', 'O', 'X', 'X', 'X', 'O'] =
    GameStatus.DRAW := by decide

example :
    evaluate_game_status ['X', 'X', 'X', 'O', 'O', 'O', ' ', ' ', ' '] =
    GameStatus.IMPOSSIBLE := by decide

example :
    validate_move (List.replicate 9 ' ') (['a'], ['2']) =
    Except.error MoveError.nonNumeric := by rfl

example :
    validate_move (List.replicate 9 ' ') (['5'], ['1']) =
    Except.error MoveError.outOfRange := by rfl

example :
    validate_move (List.replicate 9 ' ') (['2'], ['3']) =
    Except.ok (2, 3) := by rfl

/-! ## Claim theorems -/

/-- C1: for every 9-cell board state, `evaluate_game_status` returns
impossible if the counts of X and O differ by more than 1; otherwise
impossible if both X and O have a winning line; otherwise X-wins if X has
a winning line; otherwise O-wins if O has a winning line; otherwise
in-progress if any cell is still empty; otherwise draw — with the checks
applied in exactly that priority order. -/
theorem evaluate_game_status_priority_order (state : List Char)
    (h : state.length = 9) :
    evaluate_game_status state = spec_status state := by
  simp only [evaluate_game_status, spec_status]
  rw [card_get_candidate, card_get_candidate,
    check_win_get_candidate, check_win_get_candidate]
  simp only [blank_count_pos_iff]

/-- Witness for C1 at a concrete board. -/
theorem evaluate_game_status_priority_order_witness :
    (['X', 'X', 'X', 'O', 'O', ' ', ' ', ' ', ' '] : List Char).length = 9
      ∧ evaluate_game_status ['X', 'X', 'X', 'O', 'O', ' ', ' ', ' ', ' ']
        = spec_status ['X', 'X', 'X', 'O', 'O', ' ', ' ', ' ', ' '] :=
  ⟨by decide,
   evaluate_game_status_priority_order _ (by decide)⟩

/-- C2: on every 9-cell state over `{' ', 'X', 'O'}`,
`evaluate_game_status` is defined (the embedding is a total function) and
its result is one of the five statuses. -/
theorem evaluate_game_status_total (state : List Char)
    (h1 : state.length = 9)
    (h2 : ∀ c ∈ state, c = ' ' ∨ c = 'X' ∨ c = 'O') :
    evaluate_game_status state = GameStatus.NOT_FINISHED ∨
    evaluate_game_status state = GameStatus.X_WIN ∨
    evaluate_game_status state = GameStatus.O_WIN ∨
    evaluate_game_status state = GameStatus.DRAW ∨
    evaluate_game_status state = GameStatus.IMPOSSIBLE := by
  cases hs : evaluate_game_status state <;> tauto

/-- Witness for C2 at a concrete board. -/
theorem evaluate_game_status_total_witness :
    (['X', 'O', ' ', ' ', ' ', ' ', ' ', ' ', ' '] : List Char).length = 9
      ∧ (∀ c ∈ (['X', 'O', ' ', ' ', ' ', ' ', ' ', ' ', ' '] : List Char),
          c = ' ' ∨ c = 'X' ∨ c = 'O')
      ∧ (evaluate_game_status ['X', 'O', ' ', ' ', ' ', ' ', ' ', ' ', ' ']
            = GameStatus.NOT_FINISHED ∨
         evaluate_game_status ['X', 'O', ' ', ' ', ' ', ' ', ' ', ' ', ' ']
            = GameStatus.X_WIN ∨
         evaluate_game_status ['X', 'O', ' ', ' ', ' ', ' ', ' ', ' ', ' ']
            = GameStatus.O_WIN ∨
         evaluate_game_status ['X', 'O', ' ', ' ', ' ', ' ', ' ', ' ', ' ']
            = GameStatus.DRAW ∨
         evaluate_game_status ['X', 'O', ' ', ' ', ' ', ' ', ' ', ' ', ' ']
            = GameStatus.IMPOSSIBLE) :=
  ⟨by decide, by decide,
   evaluate_game_status_total _ (by decide) (by decide)⟩

/-- C3: `check_win` returns true on a set of cell indices iff one of the
8 winning triples is a subset of that set. -/
theorem check_win_iff_winning_triple_subset (candidate : Finset ℕ) :
    check_win candidate = true ↔
      (({0, 1, 2} : Finset ℕ) ⊆ candidate ∨
       ({3, 4, 5} : Finset ℕ) ⊆ candidate ∨
       ({6, 7, 8} : Finset ℕ) ⊆ candidate ∨
       ({0, 3, 6} : Finset ℕ) ⊆ candidate ∨
       ({1, 4, 7} : Finset ℕ) ⊆ candidate ∨
       ({2, 5, 8} : Finset ℕ) ⊆ candidate ∨
       ({0, 4, 8} : Finset ℕ) ⊆ candidate ∨
       ({2, 4, 6} : Finset ℕ) ⊆ candidate) := by
  simp only [check_win, winners, List.any_cons, List.any_nil,
    Bool.or_false, Bool.or_eq_true, decide_eq_true_eq]

/-! ## Helper lemmas about `add_move` -/

lemma add_move_eq_set (state : List Char) (coords : ℤ × ℤ) (ch : Char)
    (h : (flatten_coordinates coords).toNat < state.length) :
    add_move state coords ch =
      state.set (flatten_coordinates coords).toNat ch := by
  simp only [add_move]
  rw [List.set_eq_take_cons_drop ch h]

lemma flatten_toNat_lt {r c : ℤ} (hr1 : 1 ≤ r) (hr3 : r ≤ 3)
    (hc1 : 1 ≤ c) (hc3 : c ≤ 3) :
    (flatten_coordinates (r, c)).toNat < 9 := by
  simp only [flatten_coordinates]
  omega

/-- C6: on a 9-cell state and in-range one-based coordinates,
`add_move` keeps exactly 9 cells, puts the player's mark at the flattened
target index, and leaves every other cell unchanged. -/
theorem add_move_frame (state : List Char) (r c : ℤ) (ch : Char)
    (hlen : state.length = 9) (hr1 : 1 ≤ r) (hr3 : r ≤ 3)
    (hc1 : 1 ≤ c) (hc3 : c ≤ 3) :
    (add_move state (r, c) ch).length = 9 ∧
    (add_move state (r, c) ch)[(flatten_coordinates (r, c)).toNat]? =
      some ch ∧
    ∀ j : ℕ, j ≠ (flatten_coordinates (r, c)).toNat →
      (add_move state (r, c) ch)[j]? = state[j]? := by
  have hidx : (flatten_coordinates (r, c)).toNat < state.length := by
    rw [hlen]
    exact flatten_toNat_lt hr1 hr3 hc1 hc3
  rw [add_move_eq_set state (r, c) ch hidx]
  refine ⟨by simp [hlen], ?_, ?_⟩
  · rw [List.getElem?_set_self (by simpa using hidx)]
  · intro j hj
    rw [List.getElem?_set_ne (Ne.symm hj)]

/-- Witness for C6: placing an O at row 2, column 3 of a concrete
board. -/
theorem add_move_frame_witness :
    (['X', ' ', ' ', ' ', ' ', ' ', ' ', ' ', ' '] : List Char).length = 9
      ∧ (add_move ['X', ' ', ' ', ' ', ' ', ' ', ' ', ' ', ' '] (2, 3)
            'O').length = 9
      ∧ (add_move ['X', ' ', ' ', ' ', ' ', ' ', ' ', ' ', ' '] (2, 3)
            'O')[(flatten_coordinates (2, 3)).toNat]? = some 'O'
      ∧ (∀ j : ℕ, j ≠ (flatten_coordinates (2, 3)).toNat →
          (add_move ['X', ' ', ' ', ' ', ' ', ' ', ' ', ' ', ' '] (2, 3)
            'O')[j]? =
          (['X', ' ', ' ', ' ', ' ', ' ', ' ', ' ', ' '] : List Char)[j]?) :=
  ⟨by decide,
   (add_move_frame _ 2 3 'O' (by decide) (by decide) (by decide)
      (by decide) (by decide)).1,
   (add_move_frame _ 2 3 'O' (by decide) (by decide) (by decide)
      (by decide) (by decide)).2.1,
   (add_move_frame _ 2 3 'O' (by decide) (by decide) (by decide)
      (by decide) (by decide)).2.2⟩

/-! ## Characterization of `validate_move` -/

lemma validate_move_eq_nonNumeric_iff (state : List Char)
    (row col : List Char) :
    validate_move state (row, col) = Except.error MoveError.nonNumeric ↔
      ¬(isdigit row = true ∧ isdigit col = true) := by
  simp only [validate_move]
  split_ifs with h1 h2 h3 <;> simp_all <;> first | omega | aesop

lemma validate_move_eq_outOfRange_iff (state : List Char)
    (row col : List Char) :
    validate_move state (row, col) = Except.error MoveError.outOfRange ↔
      (isdigit row = true ∧ isdigit col = true) ∧
      (¬(1 ≤ to_int row ∧ to_int row < 4) ∨
       ¬(1 ≤ to_int col ∧ to_int col < 4)) := by
  simp only [validate_move]
  split_ifs with h1 h2 h3 <;> simp_all <;> first | omega | aesop

lemma validate_move_eq_cellOccupied_iff (state : List Char)
    (row col : List Char) :
    validate_move state (row, col) = Except.error MoveError.cellOccupied ↔
      (isdigit row = true ∧ isdigit col = true) ∧
      ((1 ≤ to_int row ∧ to_int row < 4) ∧
       (1 ≤ to_int col ∧ to_int col < 4)) ∧
      (state[(flatten_coordinates (to_int row, to_int col)).toNat]? =
          some 'X' ∨
       state[(flatten_coordinates (to_int row, to_int col)).toNat]? =
          some 'O') := by
  simp only [validate_move]
  split_ifs with h1 h2 h3 <;> simp_all <;> first | omega | aesop

lemma validate_move_eq_ok_iff (state : List Char) (row col : List Char)
    (p : ℤ × ℤ) :
    validate_move state (row, col) = Except.ok p ↔
      (isdigit row = true ∧ isdigit col = true) ∧
      ((1 ≤ to_int row ∧ to_int row < 4) ∧
       (1 ≤ to_int col ∧ to_int col < 4)) ∧
      ¬(state[(flatten_coordinates (to_int row, to_int col)).toNat]? =
          some 'X' ∨
        state[(flatten_coordinates (to_int row, to_int col)).toNat]? =
          some 'O') ∧
      p = (to_int row, to_int col) := by
  simp only [validate_move]
  split_ifs with h1 h2 h3 <;> simp_all <;> first | omega | aesop

lemma flatten_idx_lt_of_range {r c : ℤ} (h : (1 ≤ r ∧ r ≤ 3) ∧ (1 ≤ c ∧ c ≤ 3)) :
    (flatten_coordinates (r, c)).toNat < 9 :=
  flatten_toNat_lt h.1.1 h.1.2 h.2.1 h.2.2

/-- C4 counterexample: the token `"-1"` parses as an integer (Python
`int("-1")` succeeds) and `"2"` does too, yet `validate_move` fails with
the non-numeric error on `("-1", "2")` — so "NonNumeric exactly when at
least one token does not parse as an integer" is false as stated (the
claim would require the out-of-range error here). -/
theorem validate_move_nonNumeric_counterexample :
    spec_parses_as_int ['-', '1'] = true ∧
    spec_parses_as_int ['2'] = true ∧
    validate_move (List.replicate 9 ' ') (['-', '1'], ['2']) =
      Except.error MoveError.nonNumeric :=
  ⟨by decide, by decide, by rfl⟩

/-- C4 (amended): `validate_move` applies its checks in a fixed order
where the first failure wins: NonNumeric exactly when at least one token
is not a nonempty string of digits (Python `str.isdigit`); otherwise
OutOfRange exactly when a parsed value lies outside `[1,3]`; otherwise
CellOccupied exactly when the flattened target cell is not empty;
otherwise success. -/
theorem validate_move_order (state : List Char) (row col : List Char)
    (hlen : state.length = 9)
    (hcells : ∀ ch ∈ state, ch = ' ' ∨ ch = 'X' ∨ ch = 'O') :
    (validate_move state (row, col) = Except.error MoveError.nonNumeric ↔
      ¬(isdigit row = true ∧ isdigit col = true)) ∧
    (validate_move state (row, col) = Except.error MoveError.outOfRange ↔
      (isdigit row = true ∧ isdigit col = true) ∧
      ¬((1 ≤ to_int row ∧ to_int row ≤ 3) ∧
        (1 ≤ to_int col ∧ to_int col ≤ 3))) ∧
    (validate_move state (row, col) = Except.error MoveError.cellOccupied ↔
      (isdigit row = true ∧ isdigit col = true) ∧
      ((1 ≤ to_int row ∧ to_int row ≤ 3) ∧
       (1 ≤ to_int col ∧ to_int col ≤ 3)) ∧
      state[(flatten_coordinates (to_int row, to_int col)).toNat]? ≠
        some ' ') ∧
    (validate_move state (row, col) = Except.ok (to_int row, to_int col) ↔
      (isdigit row = true ∧ isdigit col = true) ∧
      ((1 ≤ to_int row ∧ to_int row ≤ 3) ∧
       (1 ≤ to_int col ∧ to_int col ≤ 3)) ∧
      state[(flatten_coordinates (to_int row, to_int col)).toNat]? =
        some ' ') := by
  refine ⟨validate_move_eq_nonNumeric_iff state row col, ?_, ?_, ?_⟩
  · rw [validate_move_eq_outOfRange_iff]
    constructor <;> rintro ⟨hd, h⟩ <;> exact ⟨hd, by omega⟩
  · rw [validate_move_eq_cellOccupied_iff]
    constructor
    · rintro ⟨hd, hr, hocc⟩
      refine ⟨hd, by omega, ?_⟩
      rcases hocc with h | h <;> rw [h] <;> simp
    · rintro ⟨hd, hr, hne⟩
      refine ⟨hd, by omega, ?_⟩
      have hidx :
          (flatten_coordinates (to_int row, to_int col)).toNat <
            state.length := by
        rw [hlen]
        exact flatten_idx_lt_of_range hr
      have hsome := List.getElem?_eq_getElem hidx
      rcases hcells _ (List.getElem_mem hidx) with h | h | h
      · exact absurd (by rw [hsome, h]) hne
      · left
        rw [hsome, h]
      · right
        rw [hsome, h]
  · rw [validate_move_eq_ok_iff]
    constructor
    · rintro ⟨hd, hr, hnocc, -⟩
      refine ⟨hd, by omega, ?_⟩
      have hidx :
          (flatten_coordinates (to_int row, to_int col)).toNat <
            state.length := by
        rw [hlen]
        exact flatten_idx_lt_of_range ⟨by omega, by omega⟩
      have hsome := List.getElem?_eq_getElem hidx
      rcases hcells _ (List.getElem_mem hidx) with h | h | h
      · rw [hsome, h]
      · exact absurd (hsome.trans (congrArg some h))
          (fun hx => hnocc (Or.inl hx))
      · exact absurd (hsome.trans (congrArg some h))
          (fun ho => hnocc (Or.inr ho))
    · rintro ⟨hd, hr, hsp⟩
      refine ⟨hd, by omega, ?_, rfl⟩
      rw [hsp]
      simp

/-- Witness for C4 (amended) at the empty board with tokens "2", "3". -/
theorem validate_move_order_witness :
    validate_move (List.replicate 9 ' ') (['2'], ['3']) =
      Except.ok (to_int ['2'], to_int ['3']) :=
  (validate_move_order (List.replicate 9 ' ') ['2'] ['3'] (by decide)
      (by decide)).2.2.2.mpr ⟨by decide, by decide, by rfl⟩

/-- C9: on a fully filled 9-cell board, numeric in-range coordinates
always fail with CellOccupied, while violated numeric or range checks
still take precedence. -/
theorem validate_move_full_board (state : List Char) (row col : List Char)
    (hlen : state.length = 9)
    (hfull : ∀ ch ∈ state, ch = 'X' ∨ ch = 'O') :
    ((isdigit row = true ∧ isdigit col = true) →
      ((1 ≤ to_int row ∧ to_int row ≤ 3) ∧
       (1 ≤ to_int col ∧ to_int col ≤ 3)) →
      validate_move state (row, col) =
        Except.error MoveError.cellOccupied) ∧
    (¬(isdigit row = true ∧ isdigit col = true) →
      validate_move state (row, col) =
        Except.error MoveError.nonNumeric) ∧
    ((isdigit row = true ∧ isdigit col = true) →
      ¬((1 ≤ to_int row ∧ to_int row ≤ 3) ∧
        (1 ≤ to_int col ∧ to_int col ≤ 3)) →
      validate_move state (row, col) =
        Except.error MoveError.outOfRange) := by
  refine ⟨?_, ?_, ?_⟩
  · intro hd hr
    rw [validate_move_eq_cellOccupied_iff]
    refine ⟨hd, by omega, ?_⟩
    have hidx :
        (flatten_coordinates (to_int row, to_int col)).toNat <
          state.length := by
      rw [hlen]
      exact flatten_idx_lt_of_range hr
    have hsome := List.getElem?_eq_getElem hidx
    rcases hfull _ (List.getElem_mem hidx) with h | h
    · left
      rw [hsome, h]
    · right
      rw [hsome, h]
  · intro hd
    rw [validate_move_eq_nonNumeric_iff]
    exact hd
  · intro hd hr
    rw [validate_move_eq_outOfRange_iff]
    exact ⟨hd, by omega⟩

/-- Witness for C9 on a concrete full board, covering all three parts. -/
theorem validate_move_full_board_witness :
    validate_move ['X', 'O', 'X', 'O', 'X', 'O', 'O', 'X', 'O']
        (['1'], ['1']) = Except.error MoveError.cellOccupied ∧
    validate_move ['X', 'O', 'X', 'O', 'X', 'O', 'O', 'X', 'O']
        (['a'], ['1']) = Except.error MoveError.nonNumeric ∧
    validate_move ['X', 'O', 'X', 'O', 'X', 'O', 'O', 'X', 'O']
        (['4'], ['1']) = Except.error MoveError.outOfRange :=
  ⟨(validate_move_full_board _ ['1'] ['1'] (by decide) (by decide)).1
      (by decide) (by decide),
   (validate_move_full_board _ ['a'] ['1'] (by decide) (by decide)).2.1
      (by decide),
   (validate_move_full_board _ ['4'] ['1'] (by decide) (by decide)).2.2
      (by decide) (by decide)⟩

/-- C10: occupancy means the cell holds exactly `'X'` or `'O'`: with
numeric in-range coordinates whose target cell holds any other character
(for example a junk mark in a corrupt state), `validate_move` succeeds
instead of failing with CellOccupied. -/
theorem validate_move_junk_cell_succeeds (state : List Char)
    (row col : List Char) (junk : Char)
    (hlen : state.length = 9)
    (hdr : isdigit row = true) (hdc : isdigit col = true)
    (hr : 1 ≤ to_int row ∧ to_int row ≤ 3)
    (hc : 1 ≤ to_int col ∧ to_int col ≤ 3)
    (hcell :
      state[(flatten_coordinates (to_int row, to_int col)).toNat]? =
        some junk)
    (hjx : junk ≠ 'X') (hjo : junk ≠ 'O') :
    validate_move state (row, col) =
      Except.ok (to_int row, to_int col) := by
  rw [validate_move_eq_ok_iff]
  refine ⟨⟨hdr, hdc⟩, by omega, ?_, rfl⟩
  rw [hcell]
  simp [hjx, hjo]

/-- Witness for C10: a corrupt board holding `'Z'` at cell (1,1). -/
theorem validate_move_junk_cell_succeeds_witness :
    validate_move ['Z', ' ', ' ', ' ', ' ', ' ', ' ', ' ', ' ']
        (['1'], ['1']) = Except.ok (to_int ['1'], to_int ['1']) :=
  validate_move_junk_cell_succeeds _ ['1'] ['1'] 'Z' (by decide)
    (by decide) (by decide) (by decide) (by decide) (by rfl)
    (by decide) (by decide)

/-! ## Helper lemmas about `get_player` and reachable states -/

lemma countP_set_balance (p : Char → Bool) (l : List Char) (i : ℕ)
    (a : Char) (h : i < l.length) :
    (l.set i a).countP p + (if p l[i] then 1 else 0) =
      l.countP p + (if p a then 1 else 0) := by
  have hdecomp : l = l.take i ++ l[i] :: l.drop (i + 1) := by
    conv_lhs => rw [← List.take_append_drop i l]
    rw [List.drop_eq_getElem_cons h]
  have hc : l.countP p =
      (l.take i ++ l[i] :: l.drop (i + 1)).countP p := by
    conv_lhs => rw [hdecomp]
  rw [List.set_eq_take_cons_drop a h, hc]
  rw [List.countP_append, List.countP_append, List.countP_cons,
    List.countP_cons]
  by_cases hpa : p a <;> by_cases hpl : p l[i] <;>
    simp [hpa, hpl] <;> omega

lemma reachable_invariant {s : List Char} {k : ℕ} (h : Reachable s k) :
    s.length = 9 ∧ s.countP (fun x => x == 'X' || x == 'O') = k := by
  induction h with
  | empty => exact ⟨by decide, by decide⟩
  | step hreach hvm ih =>
      obtain ⟨hlen, hcount⟩ := ih
      rename_i s k tokens checked
      obtain ⟨row, col⟩ := tokens
      rw [validate_move_eq_ok_iff] at hvm
      obtain ⟨-, hr, hnocc, hp⟩ := hvm
      subst hp
      have hidx :
          (flatten_coordinates (to_int row, to_int col)).toNat <
            s.length := by
        rw [hlen]
        exact flatten_idx_lt_of_range ⟨by omega, by omega⟩
      rw [add_move_eq_set _ _ _ hidx]
      refine ⟨by simp [hlen], ?_⟩
      have hbal := countP_set_balance
        (fun x => x == 'X' || x == 'O') s
        (flatten_coordinates (to_int row, to_int col)).toNat
        (get_player s) hidx
      have hold :
          ((s[(flatten_coordinates (to_int row, to_int col)).toNat] ==
            'X') ||
           (s[(flatten_coordinates (to_int row, to_int col)).toNat] ==
            'O')) = false := by
        have hsome := List.getElem?_eq_getElem hidx
        simp only [Bool.or_eq_false_iff, beq_eq_false_iff_ne, ne_eq]
        constructor
        · intro hx
          exact hnocc (Or.inl (hsome.trans (congrArg some hx)))
        · intro ho
          exact hnocc (Or.inr (hsome.trans (congrArg some ho)))
      have hnew : ((get_player s == 'X') || (get_player s == 'O')) =
          true := by
        simp only [get_player]
        split_ifs <;> decide
      rw [hold, hnew] at hbal
      simp at hbal
      omega

/-- C5: `get_player` counts the X/O cells and returns X on even counts,
O on odd counts — on data-model states this is the count of non-empty
cells — and along any run of validated moves from the empty board the
player to move after `k` moves is X for even `k` and O for odd `k`. -/
theorem get_player_spec :
    (∀ state : List Char, state.length = 9 →
      (∀ ch ∈ state, ch = ' ' ∨ ch = 'X' ∨ ch = 'O') →
      get_player state =
        (if state.countP (fun ch => !(ch == ' ')) % 2 = 0 then 'X'
         else 'O')) ∧
    (∀ (state : List Char) (k : ℕ), Reachable state k →
      get_player state = (if k % 2 = 0 then 'X' else 'O')) := by
  constructor
  · intro state hlen hcells
    simp only [get_player]
    have hcong : state.countP (fun x => x == 'X' || x == 'O') =
        state.countP (fun ch => !(ch == ' ')) := by
      apply List.countP_congr
      intro x hx
      rcases hcells x hx with h | h | h <;> subst h <;> decide
    rw [hcong]
  · intro state k h
    obtain ⟨-, hcount⟩ := reachable_invariant h
    simp only [get_player]
    rw [hcount]

/-- Witness for C5: X moves first on the empty board, and on a board
with one X the non-empty-cell count is odd so O is to move. -/
theorem get_player_spec_witness :
    get_player (List.replicate 9 ' ') = 'X' ∧
    get_player ['X', ' ', ' ', ' ', ' ', ' ', ' ', ' ', ' '] = 'O' :=
  ⟨(get_player_spec.2 _ 0 Reachable.empty).trans (by decide),
   (get_player_spec.1 ['X', ' ', ' ', ' ', ' ', ' ', ' ', ' ', ' ']
      (by decide) (by decide)).trans (by decide)⟩

/-! ## Helper lemmas about mark swapping -/

lemma swap_char_eq_X_iff (c : Char) :
    (if c = 'X' then 'O' else if c = 'O' then 'X' else c) = 'X' ↔
      c = 'O' := by
  split_ifs with h1 h2
  · subst h1
    decide
  · subst h2
    decide
  · exact iff_of_false h1 h2

lemma swap_char_eq_O_iff (c : Char) :
    (if c = 'X' then 'O' else if c = 'O' then 'X' else c) = 'O' ↔
      c = 'X' := by
  split_ifs with h1 h2
  · subst h1
    decide
  · subst h2
    decide
  · exact iff_of_false h2 h1

lemma swap_char_eq_space_iff (c : Char) :
    (if c = 'X' then 'O' else if c = 'O' then 'X' else c) = ' ' ↔
      c = ' ' := by
  split_ifs with h1 h2
  · subst h1
    decide
  · subst h2
    decide
  · exact Iff.rfl

lemma get_candidate_swap_marks (l : List Char) (a b : Char)
    (hab : ∀ c : Char,
      (if c = 'X' then 'O' else if c = 'O' then 'X' else c) = a ↔
        c = b) :
    get_candidate (swap_marks l) a = get_candidate l b := by
  ext i
  rw [mem_get_candidate, mem_get_candidate, swap_marks,
    List.getElem?_map]
  cases h : l[i]? with
  | none => simp
  | some c => simp [hab c]

/-- C7: swapping every X with O and every O with X and then evaluating
the status yields the mirrored status: X-wins and O-wins are exchanged,
in-progress, draw and impossible are unchanged. -/
theorem evaluate_game_status_swap_marks (state : List Char)
    (h : state.length = 9) :
    evaluate_game_status (swap_marks state) =
      mirror_status (evaluate_game_status state) := by
  have hX := get_candidate_swap_marks state 'X' 'O' swap_char_eq_X_iff
  have hO := get_candidate_swap_marks state 'O' 'X' swap_char_eq_O_iff
  have hSp := get_candidate_swap_marks state ' ' ' ' swap_char_eq_space_iff
  simp only [evaluate_game_status, get_blank_count]
  rw [hX, hO]
  simp only [hSp]
  have habs :
      (((get_candidate state 'O').card : ℤ) -
        ((get_candidate state 'X').card : ℤ)).natAbs =
      (((get_candidate state 'X').card : ℤ) -
        ((get_candidate state 'O').card : ℤ)).natAbs := by
    omega
  rw [habs]
  by_cases h1 :
      (((get_candidate state 'X').card : ℤ) -
        ((get_candidate state 'O').card : ℤ)).natAbs > 1
  · rw [if_pos h1, if_pos h1]
    rfl
  · rw [if_neg h1, if_neg h1]
    cases hx : check_win (get_candidate state 'X') <;>
      cases ho : check_win (get_candidate state 'O') <;>
        by_cases hb : (get_candidate state ' ').card > 0 <;>
          simp [hx, ho, hb, mirror_status]

/-- Witness for C7: swapping a board on which X has the top row turns
X-wins into O-wins. -/
theorem evaluate_game_status_swap_marks_witness :
    evaluate_game_status
        (swap_marks ['X', 'X', 'X', 'O', 'O', ' ', ' ', ' ', ' ']) =
      mirror_status
        (evaluate_game_status ['X', 'X', 'X', 'O', 'O', ' ', ' ', ' ', ' ']) :=
  evaluate_game_status_swap_marks _ (by decide)

/-- C8: `validate_move` is pure in the embedding, and on every failing
input the driver keeps the board state unchanged, only recording which
message to print before re-prompting. -/
theorem validate_move_error_state_unchanged (state : List Char)
    (tokens : List Char × List Char) (e : MoveError)
    (h : validate_move state tokens = Except.error e) :
    driver_step state tokens = (state, some e) := by
  simp [driver_step, h]

/-- Witness for C8: a non-numeric token on the empty board. -/
theorem validate_move_error_state_unchanged_witness :
    driver_step (List.replicate 9 ' ') (['a'], ['2']) =
      (List.replicate 9 ' ', some MoveError.nonNumeric) :=
  validate_move_error_state_unchanged _ _ _ (by rfl)
